import Mathlib

/-!
Shallow embedding of `main.go` from the Jpg-EXIF-Watermarker repository.

Conventions of the embedding:
* Go `float64` arithmetic is modelled over `ℚ` (the numeric literals `0.5`,
  `0.33`, `1.2` of the source become the rationals `1/2`, `33/100`, `6/5`);
* a Go `int(f)` conversion of a `float64` truncates toward zero, modelled by
  `goTrunc`;
* Go strings that the watermark code slices and splits are modelled as
  `List Char`; Go `len` on a string counts UTF-8 bytes, modelled by `goLen`;
* file-system, EXIF and HTTP outcomes are supplied by explicit environment
  records, and the I/O a run performs is collected as a trace of `Effect`s;
* the goroutine/semaphore scheduling of `main` is modelled by a labelled
  step relation on a dispatcher state.
-/

namespace Watermarker

/-- Truncation toward zero of a rational, the semantics of Go's `int(f)`
conversion from `float64` (for the non-negative magnitudes the program
computes this is the floor).  `Int.tdiv` truncates toward zero. -/
def goTrunc (q : ℚ) : ℤ :=
  q.num.tdiv (q.den : ℤ)

/-- UTF-8 byte length of a string (Go's `len` on a `string`). -/
def goLen (s : List Char) : ℕ :=
  (s.map Char.utf8Size).sum

/-! ### Geocoding (`getAddressFromGPS`, `AmapResponse`) -/

/-- A JSON value as Go's `encoding/json` decodes an `interface{}` field:
the `City` field of `AmapResponse.Regeocode.AddressComponent`. -/
inductive JsonValue where
  | null : JsonValue
  | str (s : String) : JsonValue
  | num (q : ℚ) : JsonValue
  | boolean (b : Bool) : JsonValue
  | arr (xs : List JsonValue) : JsonValue
  | obj : JsonValue

/-- The `addressComponent` object of the Amap reverse-geocoding response.
`city` is declared `interface{}` in the source to accept both the string
and the array wire shapes. -/
structure AddressComponent where
  province : String
  city : JsonValue
  district : String

/-- The JSON envelope `AmapResponse` of the source. -/
structure AmapResponse where
  status : String
  addressComponent : AddressComponent

/-- Outcome of the single `http.Get` issued by `getAddressFromGPS`:
either a transport error, or a response carrying an HTTP status code and
the result of `json.Unmarshal` on its body (`none` = unparsable body). -/
inductive HttpEnv where
  | netError : HttpEnv
  | resp (statusCode : ℤ) (parsed : Option AmapResponse) : HttpEnv

/-- The `switch city := ...City.(type)` normalisation of the source:
a string is used as-is; for an array the first element is used when it is
a string; every other shape yields the empty string. -/
def cityNameOf : JsonValue → String
  | .str s => s
  | .arr xs =>
    match xs with
    | [] => ""
    | x :: _ =>
      match x with
      | .str s => s
      | _ => ""
  | _ => ""

/-- `getAddressFromGPS` of the source.  The latitude/longitude only enter
the request URL; the network outcome is the environment `env`.  The
source checks, in order: empty API key, transport error, body read
(folded into `env`), `json.Unmarshal` failure, and `Status != "1"` — each
returning `""`.  The HTTP status code is only mentioned in a log line and
is never tested. -/
def getAddressFromGPS (apiKey : String) (_lat _long : ℚ) (env : HttpEnv) : String :=
  if apiKey.length = 0 then ""
  else
    match env with
    | .netError => ""
    | .resp _statusCode parsed =>
      match parsed with
      | none => ""
      | some amapResp =>
        if amapResp.status ≠ "1" then ""
        else
          let address := amapResp.addressComponent.province
          let cityName := cityNameOf amapResp.addressComponent.city
          let address := if cityName ≠ "" then address ++ cityName else address
          address ++ amapResp.addressComponent.district

/-! ### Orientation correction (`rotateImage`) -/

/-- An in-memory image: dimensions and a pixel function. -/
structure Img where
  w : ℕ
  h : ℕ
  px : ℕ → ℕ → ℕ

/-- `imaging.Rotate90` (90° counter-clockwise). -/
def rotate90 (img : Img) : Img :=
  ⟨img.h, img.w, fun x y => img.px (img.w - 1 - y) x⟩

/-- `imaging.Rotate180`. -/
def rotate180 (img : Img) : Img :=
  ⟨img.w, img.h, fun x y => img.px (img.w - 1 - x) (img.h - 1 - y)⟩

/-- `imaging.Rotate270` (270° counter-clockwise). -/
def rotate270 (img : Img) : Img :=
  ⟨img.h, img.w, fun x y => img.px y (img.h - 1 - x)⟩

/-- `rotateImage` of the source: the `switch orientation` statement. -/
def rotateImage (img : Img) (orientation : ℤ) : Img :=
  match orientation with
  | 3 => rotate180 img
  | 6 => rotate270 img
  | 8 => rotate90 img
  | _ => img

/-! ### Timestamps (`time.Time`, `Format("2006-01-02 15:04:05")`) -/

/-- A Go `time.Time` at second precision, as extracted by `x.DateTime()`. -/
structure GoTime where
  year : ℕ
  month : ℕ
  day : ℕ
  hour : ℕ
  minute : ℕ
  sec : ℕ
deriving DecidableEq

/-- Go's `time.Time.IsZero`: January 1, year 1, 00:00:00. -/
def GoTime.isZero (t : GoTime) : Bool :=
  t.year == 1 && t.month == 1 && t.day == 1 &&
    t.hour == 0 && t.minute == 0 && t.sec == 0

/-- The ASCII digit character for `n % 10`. -/
def digc (n : ℕ) : Char :=
  Nat.digitChar (n % 10)

/-- Two-digit zero-padded decimal field of Go's reference layout
(`"01"`, `"02"`, `"15"`, `"04"`, `"05"`). -/
def pad2 (n : ℕ) : List Char :=
  [digc (n / 10), digc n]

/-- Four-digit zero-padded year field (`"2006"`; EXIF years are at most
four digits). -/
def pad4 (n : ℕ) : List Char :=
  [digc (n / 1000), digc (n / 100), digc (n / 10), digc n]

/-- `timeStr.Format("2006-01-02 15:04:05")` of the source. -/
def formatTimestamp (t : GoTime) : List Char :=
  pad4 t.year ++ '-' :: pad2 t.month ++ '-' :: pad2 t.day ++
    ' ' :: pad2 t.hour ++ ':' :: pad2 t.minute ++ ':' :: pad2 t.sec

/-! ### Watermark text and its split (`strings.Split(text, "\n")`) -/

/-- Go's `strings.Split(s, "\n")`: the list of maximal `'\n'`-free
segments; always non-empty. -/
def goSplitNl : List Char → List (List Char)
  | [] => [[]]
  | c :: rest =>
    match goSplitNl rest with
    | [] => [[]]
    | l :: ls => if c = '\n' then [] :: l :: ls else (c :: l) :: ls

/-- The watermark text built by `processImageWithWatermark`:
`fmt.Sprintf("%s\n%s", timeStr.Format(...), address)`. -/
def watermarkText (timeLine address : List Char) : List Char :=
  timeLine ++ '\n' :: address

/-! ### Watermark compositing (`addWatermark`) -/

/-- An RGBA colour (`color.RGBA`). -/
structure Color where
  r : ℕ
  g : ℕ
  b : ℕ
  a : ℕ
deriving DecidableEq

/-- `image.Point`. -/
structure GoPoint where
  x : ℤ
  y : ℤ
deriving DecidableEq

/-- `image.Rectangle` (`img.Bounds()`). -/
structure GoRect where
  min : GoPoint
  max : GoPoint
deriving DecidableEq

/-- The `watermarkSettings` part of the configuration. -/
structure WatermarkSettings where
  fontSize : ℚ
  widthPadding : ℚ
  heightPadding : ℚ
  color : Color

/-- The layout quantities `addWatermark` computes before drawing. -/
structure LayoutResult where
  fontSize : ℚ
  widthPadding : ℤ
  heightPadding : ℤ
  lineHeight : ℤ
  maxWidth : ℤ
  x : ℤ
  y : ℤ
  numLines : ℕ
deriving DecidableEq

/-- One `c.DrawString(line, freetype.Pt(px, py))` call with the colour
the context's source is set to at that moment. -/
structure DrawOp where
  line : List Char
  px : ℤ
  py : ℤ
  color : Color
deriving DecidableEq

/-- The eight stroke offsets of the source (`strokeOffsets`). -/
def strokeOffsets : List (ℤ × ℤ) :=
  [(-2, -2), (-2, 0), (-2, 2), (0, -2), (0, 2), (2, -2), (2, 0), (2, 2)]

/-- The three shadow offsets of the source (`shadowOffsets`). -/
def shadowOffsets : List (ℤ × ℤ) :=
  [(4, 4), (3, 3), (5, 5)]

/-- Opaque black, the stroke colour. -/
def strokeColor : Color := ⟨0, 0, 0, 255⟩

/-- Translucent black with alpha 180, the shadow colour. -/
def shadowColor : Color := ⟨0, 0, 0, 180⟩

/-- One offset pass of `addWatermark`: the outer loop walks the lines,
the inner loop the fixed offsets, drawing at
`Pt(x+dx, y+int(fontSize)+dy)`; after each line `y += lineHeight`. -/
def passOps (lines : List (List Char)) (offsets : List (ℤ × ℤ))
    (x y fsInt lineHeight : ℤ) (col : Color) : List DrawOp :=
  match lines with
  | [] => []
  | l :: ls =>
    (offsets.map fun o => ⟨l, x + o.1, y + fsInt + o.2, col⟩) ++
      passOps ls offsets x (y + lineHeight) fsInt lineHeight col

/-- The final fill pass of `addWatermark`: each line once at
`Pt(x, y+int(fontSize))`; after each line `y += lineHeight`. -/
def fillOps (lines : List (List Char)) (x y fsInt lineHeight : ℤ)
    (col : Color) : List DrawOp :=
  match lines with
  | [] => []
  | l :: ls => ⟨l, x, y + fsInt, col⟩ :: fillOps ls x (y + lineHeight) fsInt lineHeight col

/-- Result of `addWatermark`.  `noFont` models the early return of the
unwatermarked RGBA copy when the font fails to load or parse;
`panicIndex` models the runtime panic of the unguarded `lines[1]` access
when the split text has fewer than two lines. -/
inductive WatermarkOut where
  | noFont : WatermarkOut
  | panicIndex : WatermarkOut
  | drawn (layout : LayoutResult) (ops : List DrawOp) : WatermarkOut
deriving DecidableEq

/-- `addWatermark` of the source.  `fontOk` is the combined outcome of
`os.ReadFile(config.FontPath)` and `freetype.ParseFont`; both run before
the text is split.  Float arithmetic is over `ℚ` and `int(...)`
conversions are `goTrunc`. -/
def addWatermark (ws : WatermarkSettings) (fontOk : Bool) (bounds : GoRect)
    (text : List Char) : WatermarkOut :=
  let width : ℤ := bounds.max.x - bounds.min.x
  let height : ℤ := bounds.max.y - bounds.min.y
  let maxSide : ℤ := if height > width then height else width
  let fontSize : ℚ := (maxSide : ℚ) * ws.fontSize
  let widthPadding : ℤ := goTrunc ((width : ℚ) * ws.widthPadding)
  let heightPadding : ℤ := goTrunc ((height : ℚ) * ws.heightPadding)
  if fontOk = false then .noFont
  else
    match goSplitNl text with
    | l0 :: l1 :: rest =>
      let lines := l0 :: l1 :: rest
      let lineHeight : ℤ := goTrunc (fontSize * (6 / 5 : ℚ))
      let addressWidth : ℚ := (goLen l1 : ℚ) * (33 / 100 : ℚ)
      let maxWidth : ℤ :=
        goTrunc (fontSize * max ((goLen l0 : ℚ) * (1 / 2 : ℚ)) addressWidth)
      let x : ℤ := bounds.max.x - maxWidth - widthPadding
      let y : ℤ := bounds.max.y - lineHeight * lines.length - heightPadding
      let fsInt : ℤ := goTrunc fontSize
      .drawn
        ⟨fontSize, widthPadding, heightPadding, lineHeight, maxWidth, x, y, lines.length⟩
        (passOps lines strokeOffsets x y fsInt lineHeight strokeColor ++
          passOps lines shadowOffsets x y fsInt lineHeight shadowColor ++
          fillOps lines x y fsInt lineHeight ws.color)
    | _ => .panicIndex

/-! ### Per-file pipeline (`processImage`, `processImageWithWatermark`,
`copyToNoExifFolder`)

The file-system/EXIF/HTTP outcomes a worker observes are supplied by a
`FileEnv`; the I/O the worker performs is collected as a `List Effect`
in program order. -/

/-- Observable I/O actions of one worker, in program order. -/
inductive Effect where
  | claim (filename : String) : Effect
  | openInput : Effect
  | exifDecode : Effect
  | fetchLatLong : Effect
  | geocode (lat long : ℚ) : Effect
  | copyToNoExif : Effect
  | openImage : Effect
  | rotate (code : ℤ) : Effect
  | watermark (text : List Char) : Effect
  | save (t : GoTime) : Effect
deriving DecidableEq

/-- Result of a successful `exif.Decode`: the three reads the source
performs on it.  `orientationTag = none` models both an absent
Orientation tag (`x.Get` returns nil) and a failing `orientation.Int(0)`
(whose error the source discards, leaving the value 0).
`dateTime = none` models a failing `x.DateTime()`.
`latLong = none` models a failing `x.LatLong()`. -/
structure ExifData where
  orientationTag : Option ℤ
  dateTime : Option GoTime
  latLong : Option (ℚ × ℚ)

/-- Environment for one worker: outcomes of its fallible external calls.
`exif = none` models a failing `exif.Decode`.  `geoAddress` is the string
`getAddressFromGPS` returns for this file's coordinates. -/
structure FileEnv where
  openOk : Bool
  exif : Option ExifData
  geoAddress : List Char
  copyOk : Bool
  imgOpenOk : Bool
  saveOk : Bool

/-- `copyToNoExifFolder` of the source: byte-for-byte copy into the
no-EXIF folder, returning an error when any of its open/create/copy
steps fails (collapsed into `copyOk`). -/
def copyToNoExifFolder (copyOk : Bool) : Except String Unit :=
  if copyOk then .ok () else .error "copy"

/-- `processImageWithWatermark` of the source: open the image, rotate it
by the orientation code, composite the watermark text
`timestamp ++ "\n" ++ address`, and save under the timestamp-derived
name.  Returns the result together with its effect trace. -/
def processImageWithWatermark (env : FileEnv) (timeStr : GoTime)
    (address : List Char) (orientation : ℤ) :
    Except String Unit × List Effect :=
  if env.imgOpenOk = false then (.error "openimage", [.openImage])
  else
    let text := watermarkText (formatTimestamp timeStr) address
    let tr : List Effect := [.openImage, .rotate orientation, .watermark text, .save timeStr]
    if env.saveOk then (.ok (), tr) else (.error "save", tr)

/-- The body of `processImage` after the dedup guard (source lines
173-212): open the input, decode EXIF (failure → passthrough copy),
read the orientation tag, read the timestamp (failure or zero value →
passthrough copy), then in a helper goroutine read the GPS tag and, when
it is present, geocode it; finally watermark.  Emits no `claim`
effect — claiming is done by the guard. -/
def processFile (env : FileEnv) : Except String Unit × List Effect :=
  if env.openOk = false then (.error "open", [.openInput])
  else
    match env.exif with
    | none => (copyToNoExifFolder env.copyOk, [.openInput, .exifDecode, .copyToNoExif])
    | some ex =>
      let orientationValue : ℤ := ex.orientationTag.getD 0
      match ex.dateTime with
      | none => (copyToNoExifFolder env.copyOk, [.openInput, .exifDecode, .copyToNoExif])
      | some t =>
        if t.isZero then
          (copyToNoExifFolder env.copyOk, [.openInput, .exifDecode, .copyToNoExif])
        else
          let geoTr : List Effect :=
            match ex.latLong with
            | none => [.fetchLatLong]
            | some p => [.fetchLatLong, .geocode p.1 p.2]
          let address : List Char :=
            match ex.latLong with
            | none => []
            | some _ => env.geoAddress
          let r := processImageWithWatermark env t address orientationValue
          (r.1, [.openInput, .exifDecode] ++ geoTr ++ r.2)

/-- `processImage` of the source.  The dedup guard: under the single
mutex it checks `processedFiles[filename]`, returning nil at once when
already claimed, and records the claim before any file I/O.  The claimed
set is the `List String` state. -/
def processImage (filename : String) (env : FileEnv)
    (processedFiles : List String) :
    Except String Unit × List String × List Effect :=
  if processedFiles.contains filename then (.ok (), processedFiles, [])
  else
    let r := processFile env
    (r.1, filename :: processedFiles, .claim filename :: r.2)

/-- A run: the serialisation of the claim/check mutex sections of a batch
of submissions (the dedup map is the only state shared between workers,
and every access to it is under the one mutex, so every interleaving of
the goroutines of `main` induces such a serialisation).  `envOf` gives
each filename its environment; traces are concatenated in claim order. -/
def runAll (envOf : String → FileEnv) (processedFiles : List String) :
    List String → List String × List Effect
  | [] => (processedFiles, [])
  | f :: fs =>
    let r := processImage f (envOf f) processedFiles
    let rest := runAll envOf r.2.1 fs
    (rest.1, r.2.2 ++ rest.2)

/-! ### Dispatcher concurrency (`main`, the `sem` channel)

`main` executes `sem <- struct{}{}` (blocking while `MaxConcurrency`
tokens are out) before spawning each worker goroutine, and each worker
runs `defer func() { <-sem; wg.Done() }()`, releasing its slot on every
exit path, error or not. -/

/-- Dispatcher state: files not yet admitted, workers holding a slot,
workers finished. -/
structure DispatchState where
  pending : ℕ
  running : ℕ
  done : ℕ
deriving DecidableEq

/-- Dispatcher events: `main` acquires a slot and spawns a worker, or a
worker's deferred release runs (with `ok` the success of its
`processImage` call — the release does not depend on it). -/
inductive DispatchEv where
  | acquire : DispatchEv
  | finish (ok : Bool) : DispatchEv
deriving DecidableEq

/-- One dispatcher step with semaphore capacity `cap`: `acquire` only
when a slot is free (the channel send blocks otherwise), `finish`
whenever a worker is running, regardless of `ok`. -/
inductive DispatchStep (cap : ℕ) : DispatchState → DispatchEv → DispatchState → Prop
  | acquire {s : DispatchState} (hp : 0 < s.pending) (hr : s.running < cap) :
      DispatchStep cap s .acquire ⟨s.pending - 1, s.running + 1, s.done⟩
  | finish {s : DispatchState} (ok : Bool) (hr : 0 < s.running) :
      DispatchStep cap s (.finish ok) ⟨s.pending, s.running - 1, s.done + 1⟩

/-- Reachability of dispatcher states from an initial state. -/
inductive DispatchReach (cap : ℕ) (init : DispatchState) : DispatchState → Prop
  | refl : DispatchReach cap init init
  | step {s s' : DispatchState} {e : DispatchEv} :
      DispatchReach cap init s → DispatchStep cap s e s' → DispatchReach cap init s'

/-! ## Theorems -/

/-- C3: `rotateImage` maps orientation code 3 to a 180° rotation, code 6
to a 270° rotation, code 8 to a 90° rotation, and every other code
(including 1 and any unrecognized value) to the identity, returning the
image unchanged. -/
theorem rotateImage_orientation_mapping :
    (∀ img : Img, rotateImage img 3 = rotate180 img) ∧
    (∀ img : Img, rotateImage img 6 = rotate270 img) ∧
    (∀ img : Img, rotateImage img 8 = rotate90 img) ∧
    (∀ (img : Img) (n : ℤ), n ≠ 3 → n ≠ 6 → n ≠ 8 → rotateImage img n = img) := by
  refine ⟨fun img => rfl, fun img => rfl, fun img => rfl, fun img n h3 h6 h8 => ?_⟩
  unfold rotateImage
  split <;> simp_all

/-- Witness for C3 at the concrete code 7 and a concrete image. -/
theorem rotateImage_orientation_mapping_witness :
    rotateImage ⟨2, 3, fun _ _ => 0⟩ 7 = ⟨2, 3, fun _ _ => 0⟩ :=
  rotateImage_orientation_mapping.2.2.2 ⟨2, 3, fun _ _ => 0⟩ 7
    (by decide) (by decide) (by decide)

/-- C4 counterexample: the claim says a non-2xx HTTP response causes
`getAddressFromGPS` to return the empty string, but the source never
tests the status code: an HTTP 500 response whose body parses with
status "1" yields a non-empty address. -/
theorem getAddressFromGPS_non2xx_not_empty :
    getAddressFromGPS "key" 0 0 (.resp 500 (some ⟨"1", ⟨"P", .null, "D"⟩⟩)) = "PD" ∧
    ("PD" : String) ≠ "" := by
  constructor
  · rfl
  · decide

/-- C4 (amended): every network error, unparsable response body, or
status field other than "1" makes `getAddressFromGPS` return the empty
string (no failure is fatal — the function is total into `String`);
the numeric HTTP status code itself is never examined. -/
theorem getAddressFromGPS_failure_empty
    (apiKey : String) (lat long : ℚ) (env : HttpEnv)
    (h : env = .netError ∨ (∃ c, env = .resp c none) ∨
         (∃ c r, env = .resp c (some r) ∧ r.status ≠ "1")) :
    getAddressFromGPS apiKey lat long env = "" ∧
    (∀ (c c' : ℤ) (p : Option AmapResponse),
      getAddressFromGPS apiKey lat long (.resp c p) =
        getAddressFromGPS apiKey lat long (.resp c' p)) := by
  constructor
  · rcases h with h | ⟨c, h⟩ | ⟨c, r, h, hst⟩ <;> subst h <;>
      unfold getAddressFromGPS <;> split <;> simp_all
  · intro c c' p
    unfold getAddressFromGPS
    rfl

/-- Witness for C4 (amended) at a concrete failing environment. -/
theorem getAddressFromGPS_failure_empty_witness :
    getAddressFromGPS "key" 0 0 (.resp 404 (some ⟨"0", ⟨"P", .null, "D"⟩⟩)) = "" :=
  (getAddressFromGPS_failure_empty "key" 0 0 (.resp 404 (some ⟨"0", ⟨"P", .null, "D"⟩⟩))
    (Or.inr (Or.inr ⟨404, ⟨"0", ⟨"P", .null, "D"⟩⟩, rfl, by decide⟩))).1

/-- C5: on a successful geocoding response the resolved address is the
province, then the city, then the district, concatenated in that order
with no separator; a city encoded as a string is used as-is, an array is
normalized to its first element when that is a string, and an empty
array or a missing (`null`) city contributes no city segment. -/
theorem getAddressFromGPS_success_assembly
    (apiKey : String) (lat long : ℚ) (c : ℤ) (r : AmapResponse)
    (hkey : apiKey.length ≠ 0) (hst : r.status = "1") :
    getAddressFromGPS apiKey lat long (.resp c (some r)) =
      r.addressComponent.province ++ cityNameOf r.addressComponent.city ++
        r.addressComponent.district ∧
    (∀ s, cityNameOf (.str s) = s) ∧
    (∀ s rest, cityNameOf (.arr (.str s :: rest)) = s) ∧
    cityNameOf (.arr []) = "" ∧
    cityNameOf .null = "" := by
  refine ⟨?_, fun s => rfl, fun s rest => rfl, rfl, rfl⟩
  unfold getAddressFromGPS
  simp only [hkey, if_neg, hst, ite_not]
  by_cases hc : cityNameOf r.addressComponent.city = ""
  · simp [hkey, hc, String.append_empty]
  · simp [hkey, hc]

/-- Witness for C5 at a concrete successful response with an
array-encoded city. -/
theorem getAddressFromGPS_success_assembly_witness :
    getAddressFromGPS "key" 0 0 (.resp 200 (some ⟨"1", ⟨"P", .arr [.str "C"], "D"⟩⟩)) =
      "P" ++ cityNameOf (.arr [.str "C"]) ++ "D" :=
  (getAddressFromGPS_success_assembly "key" 0 0 200 ⟨"1", ⟨"P", .arr [.str "C"], "D"⟩⟩
    (by decide) rfl).1

/-! ### Lemmas on `goSplitNl` and the watermark text -/

/-- `strings.Split` never returns an empty slice. -/
theorem goSplitNl_ne_nil (s : List Char) : goSplitNl s ≠ [] := by
  induction s with
  | nil => simp [goSplitNl]
  | cons c rest ih =>
    cases h : goSplitNl rest with
    | nil => exact absurd h ih
    | cons l ls => simp only [goSplitNl, h]; split <;> simp

/-- A newline-free string splits into the single segment itself. -/
theorem goSplitNl_of_not_mem (s : List Char) (h : '\n' ∉ s) :
    goSplitNl s = [s] := by
  induction s with
  | nil => rfl
  | cons c rest ih =>
    have hc : ¬(c = '\n') := fun hc => h (by rw [hc]; exact List.mem_cons_self _ _)
    have hrest : '\n' ∉ rest := fun hm => h (List.mem_cons_of_mem _ hm)
    simp [goSplitNl, ih hrest, hc]

/-- Splitting `a ++ "\n" ++ b` for newline-free `a` and `b` yields
exactly the two lines `a` and `b`. -/
theorem goSplitNl_clean_append (a b : List Char)
    (ha : '\n' ∉ a) (hb : '\n' ∉ b) :
    goSplitNl (a ++ '\n' :: b) = [a, b] := by
  induction a with
  | nil => simp [goSplitNl, goSplitNl_of_not_mem b hb]
  | cons c a' ih =>
    have hc : ¬(c = '\n') := fun hc => ha (by rw [hc]; exact List.mem_cons_self _ _)
    have ha' : '\n' ∉ a' := fun hm => ha (List.mem_cons_of_mem _ hm)
    simp [goSplitNl, ih ha', hc]

/-- Unfolding equation of `goSplitNl` at a cons cell. -/
theorem goSplitNl_cons (c : Char) (rest : List Char) :
    goSplitNl (c :: rest) =
      match goSplitNl rest with
      | [] => [[]]
      | l :: ls => if c = '\n' then [] :: l :: ls else (c :: l) :: ls := rfl

/-- Splitting any string that contains a newline yields at least two
segments, whatever surrounds the newline. -/
theorem goSplitNl_two_le (a b : List Char) :
    2 ≤ (goSplitNl (a ++ '\n' :: b)).length := by
  induction a with
  | nil =>
    have hb := goSplitNl_ne_nil b
    cases h : goSplitNl b with
    | nil => exact absurd h hb
    | cons l ls => simp [goSplitNl, h]
  | cons c a' ih =>
    cases h : goSplitNl (a' ++ '\n' :: b) with
    | nil => exact absurd h (goSplitNl_ne_nil _)
    | cons l ls =>
      rw [h] at ih
      rw [List.cons_append, goSplitNl_cons, h]
      by_cases hc : c = '\n'
      · simp [hc]
      · simp only [hc, if_false]
        simpa using ih

/-- No decimal digit character is a newline. -/
theorem digc_ne_newline (n : ℕ) : digc n ≠ '\n' := by
  unfold digc
  have h : n % 10 < 10 := Nat.mod_lt _ (by norm_num)
  set k := n % 10 with hk
  interval_cases k <;> decide

/-- The formatted timestamp `YYYY-MM-DD HH:MM:SS` contains no newline. -/
theorem newline_not_mem_formatTimestamp (t : GoTime) :
    '\n' ∉ formatTimestamp t := by
  have hd : ∀ n, ¬(('\n' : Char) = digc n) := fun n h => digc_ne_newline n h.symm
  have hdash : ¬(('\n' : Char) = '-') := by decide
  have hsp : ¬(('\n' : Char) = ' ') := by decide
  have hcol : ¬(('\n' : Char) = ':') := by decide
  intro h
  simp only [formatTimestamp, pad4, pad2, List.mem_append, List.mem_cons,
    List.not_mem_nil, or_false, hd, hdash, hsp, hcol, or_self, false_or] at h

/-- Number of draw calls in one offset pass: one per line per offset. -/
theorem passOps_length (lines : List (List Char)) (offsets : List (ℤ × ℤ))
    (x y fsInt lineHeight : ℤ) (col : Color) :
    (passOps lines offsets x y fsInt lineHeight col).length =
      lines.length * offsets.length := by
  induction lines generalizing y with
  | nil => simp [passOps]
  | cons l ls ih => simp [passOps, ih, Nat.succ_mul, Nat.add_comm]

/-- Number of draw calls in the fill pass: one per line. -/
theorem fillOps_length (lines : List (List Char)) (x y fsInt lineHeight : ℤ)
    (col : Color) :
    (fillOps lines x y fsInt lineHeight col).length = lines.length := by
  induction lines generalizing y with
  | nil => simp [fillOps]
  | cons l ls ih => simp [fillOps, ih]

/-- C9: `addWatermark` indexes `lines[1]` unconditionally, which is in
bounds exactly when the text contains a newline: any text with a newline
splits into at least two lines; the sole caller always builds
`timestamp ++ "\n" ++ address`, whose split is exactly the two lines
`[timestamp, address]` (also when the address is empty) since the
formatted timestamp contains no newline; and a text without a newline
splits into a single line, on which `addWatermark` panics. -/
theorem addWatermark_second_line_access :
    (∀ ts addr : List Char, 2 ≤ (goSplitNl (watermarkText ts addr)).length) ∧
    (∀ ts addr : List Char, '\n' ∉ ts → '\n' ∉ addr →
      goSplitNl (watermarkText ts addr) = [ts, addr]) ∧
    (∀ t : GoTime, '\n' ∉ formatTimestamp t) ∧
    (∀ (t : GoTime) (addr : List Char), '\n' ∉ addr →
      goSplitNl (watermarkText (formatTimestamp t) addr) = [formatTimestamp t, addr]) ∧
    (∀ text : List Char, '\n' ∉ text → (goSplitNl text).length = 1) ∧
    (∀ (ws : WatermarkSettings) (bounds : GoRect) (text : List Char),
      '\n' ∉ text → addWatermark ws true bounds text = .panicIndex) := by
  refine ⟨fun ts addr => goSplitNl_two_le ts addr,
    fun ts addr hts haddr => goSplitNl_clean_append ts addr hts haddr,
    fun t => newline_not_mem_formatTimestamp t,
    fun t addr haddr =>
      goSplitNl_clean_append _ addr (newline_not_mem_formatTimestamp t) haddr,
    fun text h => by rw [goSplitNl_of_not_mem text h]; rfl,
    fun ws bounds text h => ?_⟩
  unfold addWatermark
  simp [goSplitNl_of_not_mem text h]

/-- Witness for C9: the caller's text for a concrete timestamp and the
empty address splits into exactly two lines. -/
theorem addWatermark_second_line_access_witness :
    goSplitNl (watermarkText (formatTimestamp ⟨2023, 5, 1, 10, 0, 0⟩) []) =
      [formatTimestamp ⟨2023, 5, 1, 10, 0, 0⟩, []] :=
  addWatermark_second_line_access.2.2.2.1 ⟨2023, 5, 1, 10, 0, 0⟩ [] (by decide)

/-- C6: on the drawing path, the estimated block width is
`int(fontSize * max(0.5*len(line1), 0.33*len(line2)))`, the line height
is `int(fontSize * 1.2)`, and the block is anchored at
`x = imageRight - blockWidth - widthPadding` and
`y = imageBottom - lineHeight * numLines - heightPadding`. -/
theorem addWatermark_layout (ws : WatermarkSettings) (bounds : GoRect)
    (text l0 l1 : List Char) (rest : List (List Char))
    (hsplit : goSplitNl text = l0 :: l1 :: rest)
    (layout : LayoutResult) (ops : List DrawOp)
    (h : addWatermark ws true bounds text = .drawn layout ops) :
    layout.fontSize =
      ((if bounds.max.y - bounds.min.y > bounds.max.x - bounds.min.x then
          bounds.max.y - bounds.min.y
        else bounds.max.x - bounds.min.x : ℤ) : ℚ) * ws.fontSize ∧
    layout.maxWidth =
      goTrunc (layout.fontSize *
        max ((goLen l0 : ℚ) * (1 / 2 : ℚ)) ((goLen l1 : ℚ) * (33 / 100 : ℚ))) ∧
    layout.lineHeight = goTrunc (layout.fontSize * (6 / 5 : ℚ)) ∧
    layout.widthPadding = goTrunc (((bounds.max.x - bounds.min.x : ℤ) : ℚ) * ws.widthPadding) ∧
    layout.heightPadding = goTrunc (((bounds.max.y - bounds.min.y : ℤ) : ℚ) * ws.heightPadding) ∧
    layout.x = bounds.max.x - layout.maxWidth - layout.widthPadding ∧
    layout.y = bounds.max.y - layout.lineHeight * (l0 :: l1 :: rest).length - layout.heightPadding ∧
    layout.numLines = (l0 :: l1 :: rest).length := by
  simp only [addWatermark, hsplit, Bool.true_eq_false, if_false,
    WatermarkOut.drawn.injEq] at h
  obtain ⟨hl, -⟩ := h
  subst hl
  exact ⟨rfl, rfl, rfl, rfl, rfl, rfl, rfl, rfl⟩

/-- C7: on the drawing path the operation list is exactly three passes in
order — every line at the 8 stroke offsets in opaque black, then every
line at the 3 shadow offsets in translucent black (alpha 180), then every
line once at the anchor in the configured fill colour — each pass
complete before the next begins. -/
theorem addWatermark_three_passes (ws : WatermarkSettings) (bounds : GoRect)
    (text l0 l1 : List Char) (rest : List (List Char))
    (hsplit : goSplitNl text = l0 :: l1 :: rest)
    (layout : LayoutResult) (ops : List DrawOp)
    (h : addWatermark ws true bounds text = .drawn layout ops) :
    ops =
      passOps (l0 :: l1 :: rest)
        [(-2, -2), (-2, 0), (-2, 2), (0, -2), (0, 2), (2, -2), (2, 0), (2, 2)]
        layout.x layout.y (goTrunc layout.fontSize) layout.lineHeight ⟨0, 0, 0, 255⟩ ++
      passOps (l0 :: l1 :: rest) [(4, 4), (3, 3), (5, 5)]
        layout.x layout.y (goTrunc layout.fontSize) layout.lineHeight ⟨0, 0, 0, 180⟩ ++
      fillOps (l0 :: l1 :: rest)
        layout.x layout.y (goTrunc layout.fontSize) layout.lineHeight ws.color ∧
    ops.length = (l0 :: l1 :: rest).length * 8 + (l0 :: l1 :: rest).length * 3 +
      (l0 :: l1 :: rest).length := by
  simp only [addWatermark, hsplit, Bool.true_eq_false, if_false,
    WatermarkOut.drawn.injEq] at h
  obtain ⟨hl, hops⟩ := h
  subst hl
  constructor
  · rw [← hops]
    rfl
  · rw [← hops]
    simp [passOps_length, fillOps_length, strokeOffsets, shadowOffsets]
    omega

/-- Evaluation of `addWatermark` at a concrete 100×200 image, 2% font
size and text `"a\nb"`, shared by the C6 and C7 witnesses. -/
theorem addWatermark_concrete_eval :
    addWatermark ⟨1/50, 1/50, 1/100, ⟨255, 165, 0, 255⟩⟩ true ⟨⟨0, 0⟩, ⟨100, 200⟩⟩
        ['a', '\n', 'b'] =
      .drawn ⟨4, 2, 2, 4, 2, 96, 190, 2⟩
        (passOps [['a'], ['b']] strokeOffsets 96 190 4 4 strokeColor ++
          passOps [['a'], ['b']] shadowOffsets 96 190 4 4 shadowColor ++
          fillOps [['a'], ['b']] 96 190 4 4 ⟨255, 165, 0, 255⟩) := by
  have hs : goSplitNl ['a', '\n', 'b'] = [['a'], ['b']] := by decide
  have ht1 : Int.tdiv 24 5 = 4 := by decide
  have ht2 : Int.tdiv 2 1 = 2 := by decide
  have hua : ('a').utf8Size = 1 := by decide
  have hub : ('b').utf8Size = 1 := by decide
  simp only [addWatermark, hs]
  norm_num [goTrunc, goLen, hua, hub, sup_eq_max, max_def, ht1, ht2]

/-- Witness for C6 at a 100×200 image, 2% font size, text `"a\nb"`:
the block width is `int(4 * max(0.5*1, 0.33*1)) = 2`, anchored at
`x = 100 - 2 - 2 = 96`. -/
theorem addWatermark_layout_witness :
    (⟨4, 2, 2, 4, 2, 96, 190, 2⟩ : LayoutResult).maxWidth =
      goTrunc ((⟨4, 2, 2, 4, 2, 96, 190, 2⟩ : LayoutResult).fontSize *
        max ((goLen ['a'] : ℚ) * (1 / 2 : ℚ)) ((goLen ['b'] : ℚ) * (33 / 100 : ℚ))) :=
  (addWatermark_layout ⟨1/50, 1/50, 1/100, ⟨255, 165, 0, 255⟩⟩ ⟨⟨0, 0⟩, ⟨100, 200⟩⟩
    ['a', '\n', 'b'] ['a'] ['b'] [] (by decide)
    ⟨4, 2, 2, 4, 2, 96, 190, 2⟩
    (passOps [['a'], ['b']] strokeOffsets 96 190 4 4 strokeColor ++
      passOps [['a'], ['b']] shadowOffsets 96 190 4 4 shadowColor ++
      fillOps [['a'], ['b']] 96 190 4 4 ⟨255, 165, 0, 255⟩)
    addWatermark_concrete_eval).2.1

/-- Witness for C7 at the same concrete image and text: the 24 draw
calls decompose into the stroke, shadow and fill passes. -/
theorem addWatermark_three_passes_witness :
    (passOps [['a'], ['b']] strokeOffsets 96 190 4 4 strokeColor ++
        passOps [['a'], ['b']] shadowOffsets 96 190 4 4 shadowColor ++
        fillOps [['a'], ['b']] 96 190 4 4 ⟨255, 165, 0, 255⟩ : List DrawOp) =
      passOps [['a'], ['b']]
        [(-2, -2), (-2, 0), (-2, 2), (0, -2), (0, 2), (2, -2), (2, 0), (2, 2)]
        96 190 4 4 ⟨0, 0, 0, 255⟩ ++
      passOps [['a'], ['b']] [(4, 4), (3, 3), (5, 5)] 96 190 4 4 ⟨0, 0, 0, 180⟩ ++
      fillOps [['a'], ['b']] 96 190 4 4 ⟨255, 165, 0, 255⟩ :=
  (addWatermark_three_passes ⟨1/50, 1/50, 1/100, ⟨255, 165, 0, 255⟩⟩ ⟨⟨0, 0⟩, ⟨100, 200⟩⟩
    ['a', '\n', 'b'] ['a'] ['b'] [] (by decide)
    ⟨4, 2, 2, 4, 2, 96, 190, 2⟩
    (passOps [['a'], ['b']] strokeOffsets 96 190 4 4 strokeColor ++
      passOps [['a'], ['b']] shadowOffsets 96 190 4 4 shadowColor ++
      fillOps [['a'], ['b']] 96 190 4 4 ⟨255, 165, 0, 255⟩)
    addWatermark_concrete_eval).1

/-! ### Lemmas on the per-file pipeline -/

/-- The pipeline body after the dedup guard performs no claim: the only
claim of a worker is the one the guard records under the mutex. -/
theorem processFile_no_claim (env : FileEnv) (g : String) :
    Effect.claim g ∉ (processFile env).2 := by
  rcases env with ⟨openOk, exif, geoAddress, copyOk, imgOpenOk, saveOk⟩
  cases openOk with
  | false => simp [processFile]
  | true =>
    rcases exif with _ | ⟨tag, dt, ll⟩
    · simp [processFile]
    · rcases dt with _ | t
      · simp [processFile]
      · by_cases hz : t.isZero
        · simp [processFile, hz]
        · rcases ll with _ | p <;>
            cases imgOpenOk <;> cases saveOk <;>
              simp [processFile, processImageWithWatermark, hz]

/-- A submission leaves its own filename claimed, whether it was a
duplicate or not and whatever the processing outcome. -/
theorem processImage_mem_processed (f : String) (env : FileEnv)
    (st : List String) : f ∈ (processImage f env st).2.1 := by
  by_cases h : f ∈ st <;> simp [processImage, h]

/-- A submission never removes a name from the claimed set. -/
theorem processImage_processed_mono (f : String) (env : FileEnv)
    (st : List String) (g : String) (hg : g ∈ st) :
    g ∈ (processImage f env st).2.1 := by
  by_cases h : f ∈ st <;> simp [processImage, h, hg]

/-- A submission adds at most its own filename to the claimed set. -/
theorem processImage_processed_subset (f : String) (env : FileEnv)
    (st : List String) (g : String)
    (hg : g ∈ (processImage f env st).2.1) : g ∈ st ∨ g = f := by
  by_cases h : f ∈ st
  · simp [processImage, h] at hg
    exact Or.inl hg
  · simp [processImage, h] at hg
    rcases hg with h' | h'
    · exact Or.inr h'
    · exact Or.inl h'

/-- Number of `claim g` effects of one submission of `f`: zero when `f`
is already claimed or `g ≠ f`, one otherwise. -/
theorem processImage_claim_count (f g : String) (env : FileEnv)
    (st : List String) :
    ((processImage f env st).2.2).count (Effect.claim g) =
      if f ∈ st then 0 else if g = f then 1 else 0 := by
  by_cases h : f ∈ st
  · simp [processImage, h]
  · have hnc := processFile_no_claim env g
    rcases eq_or_ne g f with rfl | hne
    · simp [processImage, h, List.count_cons, List.count_eq_zero.mpr hnc]
    · simp [processImage, h, List.count_cons, List.count_eq_zero.mpr hnc, hne]

/-- Once a name is claimed, the rest of the run emits no claim for it. -/
theorem runAll_claim_count_zero (envOf : String → FileEnv)
    (subs : List String) (st : List String) (f : String) (hf : f ∈ st) :
    ((runAll envOf st subs).2).count (Effect.claim f) = 0 := by
  induction subs generalizing st with
  | nil => simp [runAll]
  | cons g rest ih =>
    have hcount := processImage_claim_count g f (envOf g) st
    have hmem : f ∈ (processImage g (envOf g) st).2.1 :=
      processImage_processed_mono g (envOf g) st f hf
    simp only [runAll, List.count_append]
    rw [hcount, ih _ hmem]
    by_cases hc : g ∈ st
    · simp [hc]
    · have hne : ¬(f = g) := fun he => hc (he ▸ hf)
      simp [hc, hne]

/-- Over a whole run each filename is claimed at most once. -/
theorem runAll_claim_count_le_one (envOf : String → FileEnv)
    (subs : List String) (st : List String) (f : String) :
    ((runAll envOf st subs).2).count (Effect.claim f) ≤ 1 := by
  induction subs generalizing st with
  | nil => simp [runAll]
  | cons g rest ih =>
    by_cases hf : f ∈ st
    · have h0 : ((runAll envOf st (g :: rest)).2).count (Effect.claim f) = 0 :=
        runAll_claim_count_zero envOf (g :: rest) st f hf
      omega
    · simp only [runAll, List.count_append]
      rw [processImage_claim_count g f (envOf g) st]
      rcases eq_or_ne f g with rfl | hne
      · have hmem : f ∈ (processImage f (envOf f) st).2.1 :=
          processImage_mem_processed f (envOf f) st
        rw [runAll_claim_count_zero envOf rest _ f hmem]
        simp [hf]
      · have hrest := ih ((processImage g (envOf g) st).2.1)
        by_cases hc : g ∈ st <;> simp [hc, hne] <;> omega

/-! ### Remaining claim theorems -/

/-- C1: the dedup guard makes processing at-most-once per filename: a
duplicate submission returns nil at once with no effects and an
unchanged claimed set; a fresh submission claims before any file I/O
(the claim is the head of its trace and the body emits no claim); and
over any serialised run each filename is claimed at most once. -/
theorem processImage_at_most_once :
    (∀ (f : String) (env : FileEnv) (st : List String),
      st.contains f = true → processImage f env st = (.ok (), st, [])) ∧
    (∀ (f : String) (env : FileEnv) (st : List String),
      st.contains f = false →
        (processImage f env st).2.2 = .claim f :: (processFile env).2 ∧
        (∀ g, Effect.claim g ∉ (processFile env).2)) ∧
    (∀ (envOf : String → FileEnv) (subs : List String) (f : String),
      ((runAll envOf [] subs).2).count (Effect.claim f) ≤ 1) := by
  refine ⟨fun f env st h => ?_, fun f env st h => ?_, fun envOf subs f => ?_⟩
  · simp [processImage, show f ∈ st from by simpa using h]
  · exact ⟨by simp [processImage, show f ∉ st from by simpa using h],
      fun g => processFile_no_claim env g⟩
  · exact runAll_claim_count_le_one envOf subs [] f

/-- Witness for C1: a duplicate submission of an already-claimed name is
a no-op returning nil. -/
theorem processImage_at_most_once_witness :
    processImage "a.jpg" ⟨true, none, [], true, true, true⟩ ["a.jpg"] =
      (.ok (), ["a.jpg"], []) :=
  processImage_at_most_once.1 "a.jpg" ⟨true, none, [], true, true, true⟩ ["a.jpg"]
    (by decide)

/-- C2: a fresh submission whose EXIF fails to decode, or whose
timestamp is absent or zero-valued, is routed to the passthrough copy
and performs no geocoding, no rotation and no watermarking, even when
the orientation tag or GPS data are present. -/
theorem processImage_no_metadata_passthrough
    (f : String) (env : FileEnv) (st : List String)
    (hdup : st.contains f = false) (hopen : env.openOk = true)
    (hmeta : env.exif = none ∨
      ∃ ex, env.exif = some ex ∧
        (ex.dateTime = none ∨ ∃ t, ex.dateTime = some t ∧ t.isZero = true)) :
    (processImage f env st).2.2 =
      [.claim f, .openInput, .exifDecode, .copyToNoExif] ∧
    (processImage f env st).1 = copyToNoExifFolder env.copyOk ∧
    (∀ la lo, Effect.geocode la lo ∉ (processImage f env st).2.2) ∧
    (∀ c, Effect.rotate c ∉ (processImage f env st).2.2) ∧
    (∀ tx, Effect.watermark tx ∉ (processImage f env st).2.2) := by
  have hbody : processFile env = (copyToNoExifFolder env.copyOk,
      [.openInput, .exifDecode, .copyToNoExif]) := by
    rcases hmeta with hnone | ⟨ex, hex, hdt⟩
    · simp [processFile, hopen, hnone]
    · rcases hdt with hdn | ⟨t, hdt, hz⟩
      · simp [processFile, hopen, hex, hdn]
      · simp [processFile, hopen, hex, hdt, hz]
  have hdup' : f ∉ st := by simpa using hdup
  have htr : (processImage f env st).2.2 =
      [.claim f, .openInput, .exifDecode, .copyToNoExif] := by
    simp [processImage, hdup', hbody]
  refine ⟨htr, ?_, ?_, ?_, ?_⟩
  · simp [processImage, hdup', hbody]
  · intro la lo; rw [htr]; simp
  · intro c; rw [htr]; simp
  · intro tx; rw [htr]; simp

/-- Witness for C2 at a concrete environment whose EXIF decodes with an
orientation tag and GPS present but a zero timestamp. -/
theorem processImage_no_metadata_passthrough_witness :
    (processImage "a.jpg"
        ⟨true, some ⟨some 6, some ⟨1, 1, 1, 0, 0, 0⟩, some (1, 2)⟩, [], true, true, true⟩
        []).2.2 =
      [.claim "a.jpg", .openInput, .exifDecode, .copyToNoExif] :=
  (processImage_no_metadata_passthrough "a.jpg"
    ⟨true, some ⟨some 6, some ⟨1, 1, 1, 0, 0, 0⟩, some (1, 2)⟩, [], true, true, true⟩
    [] (by decide) rfl
    (Or.inr ⟨⟨some 6, some ⟨1, 1, 1, 0, 0, 0⟩, some (1, 2)⟩, rfl,
      Or.inr ⟨⟨1, 1, 1, 0, 0, 0⟩, rfl, by decide⟩⟩)).1

/-- C10: a claimed filename is never unclaimed: a duplicate submission
returns nil (success) leaving the set and the trace (filesystem)
unchanged; no submission removes a name; every submission leaves its own
name claimed whatever the outcome; and once a name is claimed no later
submission in the run emits any claim (hence any processing) for it. -/
theorem processImage_claim_permanence :
    (∀ (f : String) (env : FileEnv) (st : List String),
      st.contains f = true → processImage f env st = (.ok (), st, [])) ∧
    (∀ (f : String) (env : FileEnv) (st : List String) (g : String),
      g ∈ st → g ∈ (processImage f env st).2.1) ∧
    (∀ (f : String) (env : FileEnv) (st : List String),
      f ∈ (processImage f env st).2.1) ∧
    (∀ (envOf : String → FileEnv) (subs : List String) (st : List String)
      (f : String), f ∈ st →
        ((runAll envOf st subs).2).count (Effect.claim f) = 0) := by
  refine ⟨fun f env st h => by simp [processImage, show f ∈ st from by simpa using h],
    fun f env st g hg => processImage_processed_mono f env st g hg,
    fun f env st => processImage_mem_processed f env st,
    fun envOf subs st f hf => runAll_claim_count_zero envOf subs st f hf⟩

/-- Witness for C10: after "a.jpg" is claimed, a later run submitting it
again (with an environment that would fail) emits no claim for it. -/
theorem processImage_claim_permanence_witness :
    ((runAll (fun _ => ⟨false, none, [], false, false, false⟩) ["a.jpg"]
        ["a.jpg", "b.jpg"]).2).count (Effect.claim "a.jpg") = 0 :=
  processImage_claim_permanence.2.2.2 (fun _ => ⟨false, none, [], false, false, false⟩)
    ["a.jpg", "b.jpg"] ["a.jpg"] "a.jpg" (by decide)

/-- C8: with semaphore capacity `cap`, every dispatcher state reachable
from an initial state with no running workers has at most `cap` workers
in flight, and a worker's release step is enabled whenever it is
running, regardless of whether its processing succeeded. -/
theorem dispatcher_bounded_concurrency :
    (∀ (cap k : ℕ) (s : DispatchState),
      DispatchReach cap ⟨k, 0, 0⟩ s → s.running ≤ cap) ∧
    (∀ (cap : ℕ) (s : DispatchState) (ok : Bool), 0 < s.running →
      DispatchStep cap s (.finish ok) ⟨s.pending, s.running - 1, s.done + 1⟩) := by
  constructor
  · intro cap k s h
    induction h with
    | refl => simp
    | step hreach hstep ih =>
      cases hstep with
      | acquire hp hr => simpa using hr
      | finish ok hr =>
        simp only []
        omega
  · intro cap s ok hr
    exact DispatchStep.finish ok hr

/-- Witness for C8: with capacity 2 and five pending files, the state
after one admission is reachable and within the bound. -/
theorem dispatcher_bounded_concurrency_witness :
    (⟨4, 1, 0⟩ : DispatchState).running ≤ 2 :=
  dispatcher_bounded_concurrency.1 2 5 ⟨4, 1, 0⟩
    (DispatchReach.step DispatchReach.refl
      (DispatchStep.acquire (by decide) (by decide)))

end Watermarker
